import Mathlib

/-!
Verification of the idefix update-detection and reconciliation engine.

Shallow embedding of `src/idfx/controller.py` (chapter-candidate
normalisation, index building, update detection) and of the sync block of
`src/idfx/cli.py` (file/database reconciliation).  Python dicts are
modelled as insertion-ordered association lists, Python numbers as a
tagged int/float value (`PyNum`) over `ℚ`, the external `float(...)`
parser at its interface boundary (each raw candidate carries its parse
outcome), and timestamps as naturals.
-/

namespace Idefix

/-- Python numeric value as stored in the loosely typed per-source dicts:
either an `int` (such as the literal `0` default) or a `float` (a parsed
chapter number).  Modelled over `ℚ`. -/
inductive PyNum where
  | int (n : Int)
  | float (q : Rat)
deriving DecidableEq

/-- Numeric value of a Python number (Python compares `int` and `float`
numerically). -/
def PyNum.toRat : PyNum → Rat
  | .int n => (n : Rat)
  | .float q => q

/-- `isinstance(v, int)` -/
def PyNum.isInt : PyNum → Bool
  | .int _ => true
  | .float _ => false

/-- `isinstance(v, float)` -/
def PyNum.isFloat : PyNum → Bool
  | .int _ => false
  | .float _ => true

/-- Python truthiness of a number: `0` and `0.0` are falsy. -/
def PyNum.truthy (v : PyNum) : Bool := !(v.toRat == 0)

/-- Truthiness of an optional number (`None` is falsy). -/
def chapTruthy : Option PyNum → Bool
  | none => false
  | some v => v.truthy

/-- Python `==` on two optional numbers (`None == None` is true, `None`
never equals a number, numbers compare numerically). -/
def chapEq : Option PyNum → Option PyNum → Bool
  | none, none => true
  | some a, some b => a.toRat == b.toRat
  | _, _ => false

/-- Python `<` on optional numbers: only both-present values compare
(the code only evaluates `<` behind `is not None` style guards). -/
def chapLtC : Option PyNum → Option PyNum → Bool
  | some a, some b => a.toRat < b.toRat
  | _, _ => false

/-- Python `a < b` where `a` is optional and `b` a number. -/
def chapLtV : Option PyNum → PyNum → Bool
  | some a, b => a.toRat < b.toRat
  | none, _ => false

/-- Python `a == b` where `a` is optional and `b` a number. -/
def chapEqV : Option PyNum → PyNum → Bool
  | some a, b => a.toRat == b.toRat
  | none, _ => false

/-- Truthiness of an optional string (`None` and `""` are falsy). -/
def strTruthy : Option String → Bool
  | none => false
  | some s => !(s == "")

/-- Truthiness of an optional timestamp (datetimes are always truthy,
`None` is falsy). -/
def timeTruthy : Option Nat → Bool
  | none => false
  | some _ => true

/-- Python `d < m` on optional timestamps, evaluated behind
`is not None` guards: true only when both are present and ordered. -/
def timeLt : Option Nat → Option Nat → Bool
  | some a, some b => a < b
  | _, _ => false

/-- Python `str.lower()`, modelled character-wise over the string's
character list (the Python builtin, at its interface boundary, in a
kernel-computable form). -/
def pyLower (s : String) : String := String.mk (s.data.map Char.toLower)

/-- Python `str.strip()`: drop leading and trailing whitespace
(the Python builtin, at its interface boundary, in a kernel-computable
form). -/
def pyStrip (s : String) : String :=
  String.mk (((s.data.dropWhile Char.isWhitespace).reverse.dropWhile
    Char.isWhitespace).reverse)

/-- Whether `s` starts with `pre` (kernel-computable form used by the
`urljoin` model). -/
def startsWithL (s pre : String) : Bool := pre.data.isPrefixOf s.data

/-- The rational 9/2 (the `4.5` of the spec's example) in normal form. -/
def fourPointFive : Rat := ⟨9, 2, by decide, by decide⟩

/-! Python `dict` as an insertion-ordered association list with unique
keys, supporting the operations the source uses. -/

/-- `d[k]` / `k in d` lookup. -/
def lookupD {α : Type} (d : List (String × α)) (k : String) : Option α :=
  match d.find? (fun p => p.1 == k) with
  | none => none
  | some p => some p.2

/-- `k in d` -/
def hasKey {α : Type} (d : List (String × α)) (k : String) : Bool :=
  (lookupD d k).isSome

/-- `d.setdefault(k, v)`: inserts at the end iff the key is absent. -/
def setdefaultD {α : Type} (d : List (String × α)) (k : String) (v : α) :
    List (String × α) :=
  if hasKey d k then d else d ++ [(k, v)]

/-- `d[k] = f(d[k])`: in-place update of the value at `k`. -/
def updateD {α : Type} (d : List (String × α)) (k : String) (f : α → α) :
    List (String × α) :=
  d.map (fun p => if p.1 == k then (p.1, f p.2) else p)

/-- Map a function over all values of a dict (used to state frame
properties such as "only the uuid fields changed"). -/
def mapValuesD {α β : Type} (f : α → β) (d : List (String × α)) :
    List (String × β) :=
  d.map (fun p => (p.1, f p.2))

/-- `Manga` dto (`src/idfx/model.py`): the fields the verified code
reads or writes. -/
structure Manga where
  uuid : Option String
  name : Option String
  chapter : Option PyNum
  created : Option Nat
  updated : Option Nat
  urls : List String
deriving DecidableEq

/-! Chapter candidate normaliser and per-source scrap
(`IDFXManga._do_scrap`, `src/idfx/controller.py:265-355`). -/

/-- A loosely typed scraped field value: a scalar string or a list of
alternative strings. -/
inductive RVal where
  | scalar (s : String)
  | vals (xs : List String)
deriving DecidableEq

/-- The list-collapse step of `_do_scrap` (`controller.py:309-310`): a
non-empty list is replaced by its first element; scalars and empty lists
are left alone, and a remaining empty list stringifies as `"[]"` in the
later f-string. -/
def RVal.collapse : RVal → String
  | .scalar s => s
  | .vals (x :: _) => x
  | .vals [] => "[]"

/-- The `number` field: a scalar candidate or a list of candidates.  The
external `float(f"{n}".strip())` parser is modelled at its interface
boundary: each candidate carries its parse outcome (`none` when parsing
raised, `some q` when it produced the number `q`). -/
inductive NumVal where
  | scalar (c : Option Rat)
  | vals (cs : List (Option Rat))
deriving DecidableEq

/-- `if not isinstance(numbers, list): numbers = [numbers]`
(`controller.py:315-316`). -/
def NumVal.cands : NumVal → List (Option Rat)
  | .scalar c => [c]
  | .vals cs => cs

/-- One raw scraped chapter record, with the optional fields `_do_scrap`
reads (`name`, `number`, `link`). -/
structure RawRecord where
  name : Option RVal
  number : Option NumVal
  link : Option RVal
deriving DecidableEq

/-- One iteration of the candidate loop (`controller.py:320-328`):
a candidate that parsed and is strictly larger replaces the running
value; unparsable candidates are skipped. -/
def candStep (acc : Rat) (c : Option Rat) : Rat :=
  match c with
  | none => acc
  | some v => if acc < v then v else acc

/-- The candidate fold of `_do_scrap` starting from the `-1` sentinel
(`controller.py:318-328`). -/
def candMax (cs : List (Option Rat)) : Rat :=
  cs.foldl candStep (-1)

/-- `if number == -1: number = None` (`controller.py:330-331`). -/
def parsedNumber (cs : List (Option Rat)) : Option Rat :=
  if candMax cs = -1 then none else some (candMax cs)

/-- The record's normalised chapter number (`number` variable after
`controller.py:312-331`); `none` when the `number` field is absent or
the sentinel survived. -/
def recNumber (a : RawRecord) : Option Rat :=
  match a.number with
  | none => none
  | some nv => parsedNumber nv.cands

/-- External `requests.compat.urljoin`, modelled at its interface
boundary (the verified claims treat resolved locations as opaque
tokens): absolute links are kept, others are resolved against the
scraper's base url. -/
def urljoin (base link : String) : String :=
  if startsWithL link ("http://") || startsWithL link ("https://") then link
  else base ++ link

/-- Per-source partial map entry (`mangas[key]` in `_do_scrap`):
`{'chapter': ..., 'url': ..., 'name': ...}`. -/
structure SrcEntry where
  chapter : PyNum
  url : String
  name : String
deriving DecidableEq

/-- `name = f"{a['name']}".strip() if "name" in a else ""`
(`controller.py:298,337-338`), after the list collapse. -/
def recName (a : RawRecord) : String :=
  match a.name with
  | some v => pyStrip v.collapse
  | none => ""

/-- `link = urljoin(scraper.url, f"{a['link']}".strip()) if "link" in a
else ""` (`controller.py:298,339-340`), after the list collapse. -/
def recLink (base : String) (a : RawRecord) : String :=
  match a.link with
  | some v => urljoin base (pyStrip v.collapse)
  | none => ""

/-- Processing of one raw record inside `_do_scrap`
(`controller.py:297-353`): normalise the number (skip the record when it
is `None` or falsy), build `name`/`link`, insert the key with the
initial `{'chapter': 0, ...}` entry, then run the guarded max-update.
The guard `not isinstance(old, float) or not isinstance(old, int)`
(`controller.py:348`) is embedded as written. -/
def procRecord (base : String) (d : List (String × SrcEntry))
    (a : RawRecord) : List (String × SrcEntry) :=
  match recNumber a with
  | none => d
  | some number =>
    if number == 0 then d
    else
      let key := pyLower (recName a)
      let d1 := setdefaultD d key ⟨PyNum.int 0, recLink base a, recName a⟩
      match lookupD d1 key with
      | none => d1
      | some e =>
        if !(e.chapter.isFloat) || !(e.chapter.isInt) then d1
        else if e.chapter.toRat < number then
          updateD d1 key
            (fun e0 =>
              { e0 with chapter := PyNum.float number, url := recLink base a })
        else d1

/-- Outcome of `scraper.scrap()` followed by `shrink`, at the source
adapter's interface boundary: a connectivity failure
(`WEBConnectException`), any other exception, or a shrunk result whose
`"chapter"` key is absent (`none`) or holds the raw records. -/
inductive ScrapOutcome where
  | connectFailure
  | failure
  | listing (chapterField : Option (List RawRecord))
deriving DecidableEq

/-- A configured source adapter: its base url and what invoking it
produces. -/
structure Scraper where
  url : String
  outcome : ScrapOutcome
deriving DecidableEq

/-- `IDFXManga._do_scrap` (`controller.py:265-355`): `None` on a
connectivity failure, any other error, or a listing without the
`"chapter"` key; otherwise the per-source map built from the records. -/
def do_scrap (s : Scraper) : Option (List (String × SrcEntry)) :=
  match s.outcome with
  | .connectFailure => none
  | .failure => none
  | .listing none => none
  | .listing (some recs) => some (recs.foldl (procRecord s.url) [])

/-- A source that contributes `None` to the collected results: it
raised, or its listing lacked the `"chapter"` key. -/
def scrapFails (s : Scraper) : Bool :=
  match s.outcome with
  | .connectFailure => true
  | .failure => true
  | .listing none => true
  | .listing (some _) => false

/-! Index builder (`IDFXManga.create_index`, `controller.py:357-416`). -/

/-- Folding one per-source item into the index
(`controller.py:401-415`): `setdefault` a fresh `Manga`, stamp
`updated`, extend `urls` on a truthy equal chapter, replace
`urls`/`chapter` on a falsy or smaller current chapter. -/
def indexStep (now : Nat) (idx : List (String × Manga))
    (kv : String × SrcEntry) : List (String × Manga) :=
  let k := kv.1
  let v := kv.2
  let idx1 := setdefaultD idx k
    ⟨none, some v.name, some v.chapter, none, none, []⟩
  updateD idx1 k (fun m0 =>
    let m1 := { m0 with updated := some now }
    let m2 :=
      if chapTruthy m1.chapter && chapEqV m1.chapter v.chapter then
        { m1 with urls := m1.urls ++ [v.url] }
      else m1
    if !(chapTruthy m2.chapter) || chapLtV m2.chapter v.chapter then
      { m2 with urls := [v.url], chapter := some v.chapter }
    else m2)

/-- Folding one collected per-source result into the index
(`controller.py:396-415`): falsy results (`None` or the empty dict) are
skipped. -/
def resultStep (now : Nat) (idx : List (String × Manga))
    (r : Option (List (String × SrcEntry))) : List (String × Manga) :=
  match r with
  | none => idx
  | some res => if res.isEmpty then idx else res.foldl (indexStep now) idx

/-- The fold of the collected per-source results into the final index
(`controller.py:394-415`). -/
def foldResults (now : Nat)
    (results : List (Option (List (String × SrcEntry)))) :
    List (String × Manga) :=
  results.foldl (resultStep now) []

/-- `IDFXManga.create_index` in the sequential mode
(`controller.py:383-416`): `None` when no scrapers are configured,
otherwise the fold of the per-source results collected in source
order. -/
def create_index (now : Nat) (scrapers : List Scraper) :
    Option (List (String × Manga)) :=
  if scrapers.isEmpty then none
  else some (foldResults now (scrapers.map do_scrap))

/-- The bounded worker-pool mode (`controller.py:365-367`):
`pool.map(self._do_scrap, self.scrapers)` collects the results in
source order, so the collected list is the same as in the sequential
mode. -/
def create_index_pool (now : Nat) (scrapers : List Scraper) :
    Option (List (String × Manga)) :=
  if scrapers.isEmpty then none
  else some (foldResults now (scrapers.map do_scrap))

/-- The one-thread-per-source mode (`controller.py:368-380`): each
thread appends its result on completion, so the collected list is some
permutation of the per-source results; the fold then runs over that
permuted list. -/
def create_index_threaded (now : Nat) (scrapers : List Scraper)
    (collected : List (Option (List (String × SrcEntry)))) :
    Option (List (String × Manga)) :=
  if scrapers.isEmpty then none
  else some (foldResults now collected)

/-! Update detector (`IDFXManga.check`, `controller.py:418-443`, and
`IDFXManga.check_multiple`, `controller.py:445-476`).  The Python code
mutates the shared index entries (`w.uuid = m.uuid`) and appends the
mutated objects themselves, so the state is threaded explicitly: the
result list holds the keys of the appended (aliased) entries, and a
materialisation step reads their final state. -/

/-- One iteration of the `check` loop: skip on a missing name or key;
on both chapters present with reader strictly behind, overwrite the
shared entry's uuid and append an alias of it. -/
def checkStep (st : List (String × Manga) × List String) (m : Manga) :
    List (String × Manga) × List String :=
  match m.name with
  | none => st
  | some nm =>
    let k := pyLower nm
    match lookupD st.1 k with
    | none => st
    | some w =>
      match m.chapter, w.chapter with
      | some mc, some wc =>
        if mc.toRat < wc.toRat then
          (updateD st.1 k (fun w0 => { w0 with uuid := m.uuid }), st.2 ++ [k])
        else st
      | _, _ => st

/-- `IDFXManga.check`: the final state of the index dict together with
the keys of the appended aliases, in reader-list order. -/
def check (user : List Manga) (web : List (String × Manga)) :
    List (String × Manga) × List String :=
  user.foldl checkStep (web, [])

/-- The list `check` hands back, as the caller observes it after the
call: each element is the (shared, final) index entry it aliases. -/
def checkResult (user : List Manga) (web : List (String × Manga)) :
    List (Option Manga) :=
  ((check user web).2).map (lookupD (check user web).1)

/-- One outer iteration of `check_multiple` (`controller.py:466-474`):
the looked-up entry's uuid is overwritten unconditionally, then each
`(uuid, chapter)` pair gets its (possibly empty) result list, extended
with an alias of the entry when that reader is strictly behind. -/
def cmStep (st : List (String × Manga) × List (String × List String))
    (p : Manga × List (String × Int)) :
    List (String × Manga) × List (String × List String) :=
  match p.1.name with
  | none => st
  | some nm =>
    let k := pyLower nm
    match lookupD st.1 k with
    | none => st
    | some _ =>
      let web1 := updateD st.1 k (fun w0 => { w0 with uuid := p.1.uuid })
      let res1 := p.2.foldl
        (fun res uc =>
          let res2 := if hasKey res uc.1 then res else res ++ [(uc.1, [])]
          match lookupD web1 k with
          | none => res2
          | some w =>
            match w.chapter with
            | some wc =>
              if (uc.2 : Rat) < wc.toRat then
                updateD res2 uc.1 (fun l => l ++ [k])
              else res2
            | none => res2)
        st.2
      (web1, res1)

/-- `IDFXManga.check_multiple`: final index state and, per reader uuid,
the keys of the aliased entries appended for that reader. -/
def check_multiple (user : List (Manga × List (String × Int)))
    (web : List (String × Manga)) :
    List (String × Manga) × List (String × List String) :=
  user.foldl cmStep (web, [])

/-! Reconciler: the common-key step of the `--sync` block of
`src/idfx/cli.py:253-298`, for one file/database pair. -/

/-- The output of one common-pair reconciliation step: the database
copy, the file copy, the dirty flag, and whether the database copy was
appended to `upd_db`. -/
structure SyncOut where
  d : Manga
  m : Manga
  dirty : Bool
  upsert : Bool
deriving DecidableEq

/-- `if not m.uuid: m.uuid = d.uuid; dirty = True` (`cli.py:257-259`). -/
def bfUuid (d : Manga) (s : Manga × Bool) : Manga × Bool :=
  if !(strTruthy s.1.uuid) then ({ s.1 with uuid := d.uuid }, true) else s

/-- `if not m.created: ...` (`cli.py:261-263`). -/
def bfCreated (d : Manga) (s : Manga × Bool) : Manga × Bool :=
  if !(timeTruthy s.1.created) then ({ s.1 with created := d.created }, true)
  else s

/-- `if not m.updated: ...` (`cli.py:265-267`). -/
def bfUpdated (d : Manga) (s : Manga × Bool) : Manga × Bool :=
  if !(timeTruthy s.1.updated) then ({ s.1 with updated := d.updated }, true)
  else s

/-- `if not m.name: ...` (`cli.py:269-271`). -/
def bfName (d : Manga) (s : Manga × Bool) : Manga × Bool :=
  if !(strTruthy s.1.name) then ({ s.1 with name := d.name }, true) else s

/-- The field backfill of the sync block (`cli.py:257-271`): each of
`uuid`, `created`, `updated`, `name` that is falsy on the file copy is
copied from the database copy, setting the dirty flag. -/
def backfill (d m : Manga) (dirty : Bool) : Manga × Bool :=
  bfName d (bfUpdated d (bfCreated d (bfUuid d (m, dirty))))

/-- One common-key pass of the sync block (`cli.py:253-298`): backfill,
then the timestamp-driven direction (`cli.py:273-288`), then the
equal-timestamp chapter rule (`cli.py:289-298`). -/
def syncPair (d m : Manga) (dirty : Bool) : SyncOut :=
  let bf := backfill d m dirty
  let m1 := bf.1
  let dirty1 := bf.2
  if timeLt d.updated m1.updated then
    ⟨{ d with name := m1.name, chapter := m1.chapter, updated := m1.updated },
      m1, dirty1, true⟩
  else if timeLt m1.updated d.updated then
    ⟨d, { m1 with name := d.name, chapter := d.chapter, updated := d.updated },
      true, false⟩
  else if !(chapEq d.chapter m1.chapter) then
    if m1.chapter.isNone || chapLtC m1.chapter d.chapter then
      ⟨d, { m1 with chapter := d.chapter }, true, false⟩
    else if d.chapter.isNone || chapLtC d.chapter m1.chapter then
      ⟨{ d with chapter := m1.chapter }, m1, dirty1, true⟩
    else ⟨d, m1, dirty1, false⟩
  else ⟨d, m1, dirty1, false⟩

/-- Whether one collected result mentions key `k`. -/
def keyInR (r : Option (List (String × SrcEntry))) (k : String) : Bool :=
  match r with
  | none => false
  | some res => res.any (fun kv => kv.1 == k)

/-! Specification-level helpers for the update detector. -/

/-- Whether a reader entry qualifies for an update against the index
`web`, and with which key: its name is present, both chapters are
non-null, and the reader's chapter is strictly less than the index
chapter.  (This mirrors the claim's wording; theorems below relate it
to `check`.) -/
def qualKey (web : List (String × Manga)) (m : Manga) : Option String :=
  match m.name with
  | none => none
  | some nm =>
    match lookupD web (pyLower nm) with
    | none => none
    | some w =>
      match m.chapter, w.chapter with
      | some mc, some wc =>
        if mc.toRat < wc.toRat then some (pyLower nm) else none
      | _, _ => none

/-- Forget the uuid field (used to state that `check` mutates nothing
but uuids). -/
def clearUuid (w : Manga) : Manga := { w with uuid := none }

/-- Apply an optional uuid overwrite. -/
def patchUuid (o : Option (Option String)) (w : Manga) : Manga :=
  match o with
  | none => w
  | some u => { w with uuid := u }

/-- The uuid of the last reader entry in `user` that qualifies against
`web` with key `k`, when any does. -/
def lastQualUuid (user : List Manga) (web : List (String × Manga))
    (k : String) : Option (Option String) :=
  ((user.filter (fun m0 => decide (qualKey web m0 = some k))).getLast?).map
    (fun m0 => m0.uuid)

/-! Concrete inputs used by the claim-level theorems, their witnesses
and counterexamples. -/

/-- A source whose single record is name `x` with the single number
candidate `5` and no link. -/
def scrC1 : Scraper :=
  ⟨("b"), ScrapOutcome.listing (some
    [⟨some (RVal.scalar ("x")), some (NumVal.scalar (some 5)), none⟩])⟩

/-- A source reporting chapter 3 for `x` at link `a`. -/
def scrA : Scraper :=
  ⟨("u1/"), ScrapOutcome.listing (some
    [⟨some (RVal.scalar ("x")), some (NumVal.scalar (some 3)),
      some (RVal.scalar ("a"))⟩])⟩

/-- A source reporting chapter 5 for `x` at link `b`. -/
def scrB : Scraper :=
  ⟨("u2/"), ScrapOutcome.listing (some
    [⟨some (RVal.scalar ("x")), some (NumVal.scalar (some 5)),
      some (RVal.scalar ("b"))⟩])⟩

/-- A source that raises a connectivity failure. -/
def scrFail : Scraper := ⟨("f"), ScrapOutcome.connectFailure⟩

/-- A raw record whose only number candidate parses to `0`. -/
def recZero : RawRecord :=
  ⟨some (RVal.scalar ("x")), some (NumVal.vals [some 0]), none⟩

/-- Database copy: uuid `u`, chapter 3, updated at 5. -/
def dbAgree : Manga := ⟨some ("u"), some ("X"), some (PyNum.float 3), some 1,
  some 5, []⟩

/-- File copy equal to `dbAgree` except that the uuid is missing. -/
def fileNoUuid : Manga := ⟨none, some ("X"), some (PyNum.float 3), some 1,
  some 5, []⟩

/-- File copy equal to `dbAgree` (all fields present). -/
def fileAgree : Manga := ⟨some ("u"), some ("X"), some (PyNum.float 3), some 1,
  some 5, []⟩

/-- Database copy with chapter 7, updated at 5. -/
def dbChap7 : Manga := ⟨some ("u"), some ("X"), some (PyNum.float 7), some 1,
  some 5, []⟩

/-- File copy with chapter `None` and the same timestamp as `dbChap7`. -/
def fileNoChap : Manga := ⟨some ("u"), some ("X"), none, some 1, some 5, []⟩

/-- Database copy updated at 3 with chapter 2. -/
def dbOld : Manga := ⟨some ("u"), some ("X"), some (PyNum.float 2), some 1,
  some 3, []⟩

/-- File copy updated at 5 (newer) with chapter 4 and a changed name. -/
def fileNew : Manga := ⟨some ("u"), some ("Y"), some (PyNum.float 4), some 1,
  some 5, []⟩

/-- Index entry for the update-detector examples: chapter 5, no uuid. -/
def webX : Manga := ⟨none, some ("x"), some (PyNum.float 5), none, none,
  [("l")]⟩

/-- An index holding only `webX` under key `x`. -/
def webC6 : List (String × Manga) := [(("x"), webX)]

/-- First reader of title `x`: uuid `1`, chapter 2. -/
def readerOne : Manga := ⟨some ("1"), some ("x"), some (PyNum.int 2), none,
  none, []⟩

/-- Second reader of title `x`: uuid `2`, chapter 3. -/
def readerTwo : Manga := ⟨some ("2"), some ("x"), some (PyNum.int 3), none,
  none, []⟩

/-- Two reader entries for the same title. -/
def usersC6 : List Manga := [readerOne, readerTwo]

/-! Helper lemmas about the dict model. -/

theorem lookupD_nil {α : Type} (k : String) :
    lookupD ([] : List (String × α)) k = none := rfl

theorem lookupD_cons {α : Type} (p : String × α) (d : List (String × α))
    (k : String) :
    lookupD (p :: d) k = if p.1 = k then some p.2 else lookupD d k := by
  unfold lookupD
  rw [List.find?_cons]
  by_cases h : p.1 = k
  · simp [h]
  · have hb : (p.1 == k) = false := by simp [h]
    simp [hb, h]

theorem lookupD_append {α : Type} (d1 d2 : List (String × α)) (k : String) :
    lookupD (d1 ++ d2) k =
      match lookupD d1 k with
      | some w => some w
      | none => lookupD d2 k := by
  induction d1 with
  | nil => simp [lookupD_nil]
  | cons p d ih =>
    rw [List.cons_append, lookupD_cons, lookupD_cons]
    by_cases h : p.1 = k <;> simp [h, ih]

theorem lookupD_updateD {α : Type} (d : List (String × α)) (k : String)
    (f : α → α) (k2 : String) :
    lookupD (updateD d k f) k2 =
      if k = k2 then (lookupD d k2).map f else lookupD d k2 := by
  induction d with
  | nil =>
    unfold updateD
    simp only [List.map_nil, lookupD_nil]
    split <;> rfl
  | cons p d ih =>
    unfold updateD at ih ⊢
    simp only [beq_iff_eq] at ih ⊢
    simp only [List.map_cons]
    by_cases hpk : p.1 = k
    · by_cases hkk2 : k = k2
      · subst hkk2
        simp [lookupD_cons, hpk, ih]
      · have hpk2 : ¬(p.1 = k2) := by rw [hpk]; exact hkk2
        simp [lookupD_cons, hpk, hpk2, ih, hkk2]
    · by_cases hpk2 : p.1 = k2
      · by_cases hkk2 : k = k2
        · exact absurd (hkk2 ▸ hpk2) hpk
        · have hk2k : ¬(k2 = k) := fun h => hkk2 h.symm
          simp [lookupD_cons, hpk, hpk2, hkk2, hk2k]
      · simp [lookupD_cons, hpk, hpk2, ih]

theorem isSome_lookupD_updateD {α : Type} (d : List (String × α))
    (k : String) (f : α → α) (k2 : String) :
    (lookupD (updateD d k f) k2).isSome = (lookupD d k2).isSome := by
  rw [lookupD_updateD]
  split
  · cases lookupD d k2 <;> rfl
  · rfl

theorem lookupD_setdefaultD {α : Type} (d : List (String × α)) (k : String)
    (v : α) (k2 : String) :
    lookupD (setdefaultD d k v) k2 =
      match lookupD d k2 with
      | some w => some w
      | none => if k = k2 then some v else none := by
  unfold setdefaultD hasKey
  cases hk : (lookupD d k).isSome with
  | true =>
    simp only [hk, if_true]
    cases h2 : lookupD d k2 with
    | some w => rfl
    | none =>
      by_cases hkk2 : k = k2
      · subst hkk2
        rw [h2] at hk
        exact absurd hk (by simp)
      · simp [hkk2]
  | false =>
    simp only [hk, Bool.false_eq_true, if_false]
    rw [lookupD_append]
    cases h2 : lookupD d k2 with
    | some w => rfl
    | none => simp [lookupD_cons, lookupD_nil]

theorem lookupD_mapValuesD {α β : Type} (f : α → β)
    (d : List (String × α)) (k : String) :
    lookupD (mapValuesD f d) k = (lookupD d k).map f := by
  induction d with
  | nil => rfl
  | cons p d ih =>
    unfold mapValuesD at ih ⊢
    simp only [List.map_cons]
    rw [lookupD_cons, lookupD_cons]
    by_cases h : p.1 = k <;> simp [h, ih]

/-! Helper lemmas about the candidate fold and the per-source map. -/

theorem candStep_some (acc v : Rat) : candStep acc (some v) = max acc v := by
  unfold candStep
  rcases lt_or_ge acc v with h | h
  · simp [h, max_eq_right (le_of_lt h)]
  · simp [not_lt_of_ge h, max_eq_left h]

theorem foldl_candStep_eq (cs : List (Option Rat)) (acc : Rat) :
    cs.foldl candStep acc = (cs.filterMap id).foldl max acc := by
  induction cs generalizing acc with
  | nil => rfl
  | cons c cs ih =>
    cases c with
    | none => simpa using ih acc
    | some v =>
      simp only [List.foldl_cons, List.filterMap_cons_some, id_eq,
        candStep_some]
      exact ih (max acc v)

theorem candMax_eq_foldl_max (cs : List (Option Rat)) :
    candMax cs = (cs.filterMap id).foldl max (-1) :=
  foldl_candStep_eq cs (-1)

theorem le_foldl_max (l : List Rat) (acc : Rat) : acc ≤ l.foldl max acc := by
  induction l generalizing acc with
  | nil => exact le_refl acc
  | cons x l ih => exact le_trans (le_max_left acc x) (ih (max acc x))

theorem mem_le_foldl_max (l : List Rat) (acc w : Rat) :
    w ∈ l → w ≤ l.foldl max acc := by
  induction l generalizing acc with
  | nil => intro hw; cases hw
  | cons x l ih =>
    intro hw
    rcases List.mem_cons.mp hw with h | h
    · subst h
      exact le_trans (le_max_right acc w) (le_foldl_max l (max acc w))
    · exact ih (max acc x) h

theorem candMax_sentinel (cs : List (Option Rat))
    (h : ∀ c ∈ cs, ∀ v : Rat, c = some v → v ≤ -1) : candMax cs = -1 := by
  unfold candMax
  induction cs with
  | nil => rfl
  | cons c cs ih =>
    cases c with
    | none =>
      exact ih (fun c hc v hv => h c (List.mem_cons_of_mem _ hc) v hv)
    | some v =>
      have hv : v ≤ -1 := h (some v) (List.mem_cons_self _ _) v rfl
      have : candStep (-1) (some v) = -1 := by
        unfold candStep
        simp [not_lt_of_ge (le_trans hv (le_refl _))]
      rw [List.foldl_cons, this]
      exact ih (fun c hc w hw => h c (List.mem_cons_of_mem _ hc) w hw)

/-- The guard `not isinstance(old, float) or not isinstance(old, int)`
(`controller.py:348`) is true of every Python value, so the max-update
at `controller.py:351-353` is dead code. -/
theorem guard_always_true (c : PyNum) : (!(c.isFloat) || !(c.isInt)) = true := by
  cases c <;> rfl

theorem mem_setdefaultD {α : Type} (d : List (String × α)) (k : String)
    (v : α) (kv : String × α) (h : kv ∈ setdefaultD d k v) :
    kv ∈ d ∨ kv = (k, v) := by
  unfold setdefaultD at h
  split at h
  · exact Or.inl h
  · rcases List.mem_append.mp h with h1 | h1
    · exact Or.inl h1
    · exact Or.inr (List.mem_singleton.mp h1)

/-- Because the `isinstance` guard is always true, processing a record
either leaves the per-source map unchanged or `setdefault`s an entry
whose chapter is the initial `int 0`; the max-update never runs. -/
theorem procRecord_cases (base : String) (d : List (String × SrcEntry))
    (a : RawRecord) :
    procRecord base d a = d ∨
      procRecord base d a =
        setdefaultD d (pyLower (recName a))
          ⟨PyNum.int 0, recLink base a, recName a⟩ := by
  unfold procRecord
  cases recNumber a with
  | none => exact Or.inl rfl
  | some number =>
    by_cases h0 : number == 0
    · simp only [h0, if_true]
      exact Or.inl trivial
    · simp only [h0, Bool.false_eq_true, if_false]
      split

      · exact Or.inr rfl
      · simp only [guard_always_true, if_true]
        exact Or.inr trivial

theorem procRecord_chapter_zero (base : String) (d : List (String × SrcEntry))
    (a : RawRecord) (hd : ∀ kv ∈ d, kv.2.chapter = PyNum.int 0) :
    ∀ kv ∈ procRecord base d a, kv.2.chapter = PyNum.int 0 := by
  rcases procRecord_cases base d a with h | h
  · rw [h]
    exact hd
  · rw [h]
    intro kv hkv
    rcases mem_setdefaultD _ _ _ _ hkv with h1 | h1
    · exact hd kv h1
    · rw [h1]

theorem foldl_procRecord_chapter_zero (base : String) (recs : List RawRecord)
    (d0 : List (String × SrcEntry))
    (hd : ∀ kv ∈ d0, kv.2.chapter = PyNum.int 0) :
    ∀ kv ∈ recs.foldl (procRecord base) d0, kv.2.chapter = PyNum.int 0 := by
  induction recs generalizing d0 with
  | nil => exact hd
  | cons a recs ih =>
    exact ih (procRecord base d0 a) (procRecord_chapter_zero base d0 a hd)

/-- Every entry of a successful `_do_scrap` result carries the initial
chapter `0`: the per-source max-update is dead code. -/
theorem do_scrap_chapter_zero (s : Scraper) (d : List (String × SrcEntry))
    (h : do_scrap s = some d) :
    ∀ kv ∈ d, kv.2.chapter = PyNum.int 0 := by
  unfold do_scrap at h
  cases hs : s.outcome with
  | connectFailure => rw [hs] at h; cases h
  | failure => rw [hs] at h; cases h
  | listing cf =>
    cases cf with
    | none => rw [hs] at h; cases h
    | some recs =>
      rw [hs] at h
      have hd : recs.foldl (procRecord s.url) [] = d := Option.some.inj h
      rw [← hd]
      exact foldl_procRecord_chapter_zero s.url recs []
        (fun kv hkv => absurd hkv (List.not_mem_nil kv))

/-! Helper lemmas for the index fold: which keys are present. -/

theorem isSome_lookupD_indexStep (now : Nat) (idx : List (String × Manga))
    (kv : String × SrcEntry) (k : String) :
    (lookupD (indexStep now idx kv) k).isSome
      = ((lookupD idx k).isSome || (kv.1 == k)) := by
  unfold indexStep
  rw [isSome_lookupD_updateD, lookupD_setdefaultD]
  cases h : lookupD idx k with
  | some w => simp
  | none =>
    by_cases hk : kv.1 = k
    · simp [hk]
    · simp [hk]

theorem isSome_lookupD_foldl_indexStep (now : Nat)
    (res : List (String × SrcEntry)) (idx : List (String × Manga))
    (k : String) :
    (lookupD (res.foldl (indexStep now) idx) k).isSome
      = ((lookupD idx k).isSome || res.any (fun kv => kv.1 == k)) := by
  induction res generalizing idx with
  | nil => simp
  | cons kv res ih =>
    rw [List.foldl_cons, ih, isSome_lookupD_indexStep]
    simp [Bool.or_assoc]

theorem isSome_lookupD_resultStep (now : Nat) (idx : List (String × Manga))
    (r : Option (List (String × SrcEntry))) (k : String) :
    (lookupD (resultStep now idx r) k).isSome
      = ((lookupD idx k).isSome || keyInR r k) := by
  cases r with
  | none => simp [resultStep, keyInR]
  | some res =>
    cases res with
    | nil => simp [resultStep, keyInR]
    | cons kv res =>
      simp [resultStep, keyInR, isSome_lookupD_foldl_indexStep,
        isSome_lookupD_indexStep, Bool.or_assoc]

theorem isSome_lookupD_foldl_resultStep (now : Nat)
    (results : List (Option (List (String × SrcEntry))))
    (idx : List (String × Manga)) (k : String) :
    (lookupD (results.foldl (resultStep now) idx) k).isSome
      = ((lookupD idx k).isSome || results.any (fun r => keyInR r k)) := by
  induction results generalizing idx with
  | nil => simp
  | cons r results ih =>
    rw [List.foldl_cons, ih, isSome_lookupD_resultStep]
    simp [Bool.or_assoc]

theorem isSome_lookupD_foldResults (now : Nat)
    (results : List (Option (List (String × SrcEntry)))) (k : String) :
    (lookupD (foldResults now results) k).isSome
      = results.any (fun r => keyInR r k) := by
  unfold foldResults
  rw [isSome_lookupD_foldl_resultStep]
  simp [lookupD_nil]

theorem any_of_perm {α : Type} (l1 l2 : List α) (h : l1.Perm l2)
    (f : α → Bool) : l1.any f = l2.any f := by
  cases h1 : l1.any f with
  | true =>
    rw [List.any_eq_true] at h1
    obtain ⟨x, hx, hfx⟩ := h1
    exact (List.any_eq_true.mpr ⟨x, h.mem_iff.mp hx, hfx⟩).symm
  | false =>
    cases h2 : l2.any f with
    | false => rfl
    | true =>
      rw [List.any_eq_true] at h2
      obtain ⟨x, hx, hfx⟩ := h2
      have := List.any_eq_true.mpr ⟨x, h.mem_iff.mpr hx, hfx⟩
      rw [h1] at this
      cases this

/-! Helper lemmas for error containment (`create_index`). -/

theorem do_scrap_of_fails (s : Scraper) (h : scrapFails s = true) :
    do_scrap s = none := by
  unfold do_scrap
  unfold scrapFails at h
  cases hs : s.outcome with
  | connectFailure => rfl
  | failure => rfl
  | listing cf =>
    cases cf with
    | none => rfl
    | some recs => rw [hs] at h; cases h

theorem foldResults_skip_none (now : Nat)
    (rs1 rs2 : List (Option (List (String × SrcEntry)))) :
    foldResults now (rs1 ++ none :: rs2) = foldResults now (rs1 ++ rs2) := by
  unfold foldResults
  rw [List.foldl_append, List.foldl_append, List.foldl_cons]
  rfl

theorem foldl_resultStep_all_none (now : Nat)
    (rs : List (Option (List (String × SrcEntry))))
    (idx : List (String × Manga)) (h : ∀ r ∈ rs, r = none) :
    rs.foldl (resultStep now) idx = idx := by
  induction rs with
  | nil => rfl
  | cons r rs ih =>
    rw [List.foldl_cons, h r (List.mem_cons_self _ _)]
    exact ih (fun r2 hr2 => h r2 (List.mem_cons_of_mem _ hr2))

/-! Helper lemmas about the reconciler's backfill step. -/

theorem bfUuid_chapter (d : Manga) (s : Manga × Bool) :
    (bfUuid d s).1.chapter = s.1.chapter := by
  unfold bfUuid; split <;> rfl

theorem bfUuid_updated (d : Manga) (s : Manga × Bool) :
    (bfUuid d s).1.updated = s.1.updated := by
  unfold bfUuid; split <;> rfl

theorem bfCreated_chapter (d : Manga) (s : Manga × Bool) :
    (bfCreated d s).1.chapter = s.1.chapter := by
  unfold bfCreated; split <;> rfl

theorem bfCreated_updated (d : Manga) (s : Manga × Bool) :
    (bfCreated d s).1.updated = s.1.updated := by
  unfold bfCreated; split <;> rfl

theorem bfUpdated_chapter (d : Manga) (s : Manga × Bool) :
    (bfUpdated d s).1.chapter = s.1.chapter := by
  unfold bfUpdated; split <;> rfl

theorem bfName_chapter (d : Manga) (s : Manga × Bool) :
    (bfName d s).1.chapter = s.1.chapter := by
  unfold bfName; split <;> rfl

theorem bfName_updated (d : Manga) (s : Manga × Bool) :
    (bfName d s).1.updated = s.1.updated := by
  unfold bfName; split <;> rfl

/-- Backfill never touches the file copy's chapter. -/
theorem backfill_chapter (d m : Manga) (b : Bool) :
    (backfill d m b).1.chapter = m.chapter := by
  unfold backfill
  rw [bfName_chapter, bfUpdated_chapter, bfCreated_chapter, bfUuid_chapter]

/-- The file copy's `updated` after backfill: kept when truthy, copied
from the database copy when falsy. -/
theorem backfill_updated (d m : Manga) (b : Bool) :
    (backfill d m b).1.updated =
      (if timeTruthy m.updated = true then m.updated else d.updated) := by
  unfold backfill
  rw [bfName_updated]
  have hc : timeTruthy ((bfCreated d (bfUuid d (m, b))).1.updated)
      = timeTruthy m.updated := by
    rw [bfCreated_updated, bfUuid_updated]
  unfold bfUpdated
  rw [hc]
  cases h : timeTruthy m.updated with
  | true => simp [h, bfCreated_updated, bfUuid_updated]
  | false => simp [h]

/-- When all four backfilled fields are already truthy on the file copy,
the backfill does nothing. -/
theorem backfill_noop (d m : Manga) (b : Bool) (h1 : strTruthy m.uuid = true)
    (h2 : timeTruthy m.created = true) (h3 : timeTruthy m.updated = true)
    (h4 : strTruthy m.name = true) : backfill d m b = (m, b) := by
  unfold backfill bfUuid bfCreated bfUpdated bfName
  simp [h1, h2, h3, h4]

/-- `timeLt` is irreflexive: equal optional timestamps never order. -/
theorem timeLt_self (o : Option Nat) : timeLt o o = false := by
  cases o with
  | none => rfl
  | some t => simp [timeLt]

theorem patchUuid_chapter (o : Option (Option String)) (w : Manga) :
    (patchUuid o w).chapter = w.chapter := by
  cases o <;> rfl

theorem lastQualUuid_nil (web : List (String × Manga)) (k : String) :
    lastQualUuid [] web k = none := rfl

theorem lastQualUuid_concat_pos (us : List Manga) (m : Manga)
    (web : List (String × Manga)) (k : String) (h : qualKey web m = some k) :
    lastQualUuid (us ++ [m]) web k = some m.uuid := by
  unfold lastQualUuid
  rw [List.filter_append]
  have hf : List.filter (fun m0 => decide (qualKey web m0 = some k)) [m]
      = [m] := by
    simp [List.filter, h]
  rw [hf, List.getLast?_concat]
  rfl

theorem lastQualUuid_concat_neg (us : List Manga) (m : Manga)
    (web : List (String × Manga)) (k : String)
    (h : ¬(qualKey web m = some k)) :
    lastQualUuid (us ++ [m]) web k = lastQualUuid us web k := by
  unfold lastQualUuid
  rw [List.filter_append]
  have hf : List.filter (fun m0 => decide (qualKey web m0 = some k)) [m]
      = [] := by
    simp [List.filter, h]
  rw [hf, List.append_nil]

theorem check_concat (us : List Manga) (m : Manga)
    (web : List (String × Manga)) :
    check (us ++ [m]) web = checkStep (check us web) m := by
  unfold check
  rw [List.foldl_append]
  rfl

theorem patchUuid_then_set (o : Option (Option String)) (u : Option String)
    (w : Manga) :
    { patchUuid o w with uuid := u } = { w with uuid := u } := by
  cases o <;> rfl

/-- Full characterisation of `check`: the appended keys are exactly the
qualifying reader entries in reader order, and the final index state
differs from the input only in that each key's uuid is overwritten by
the last qualifying reader entry for that key. -/
theorem check_characterization (user : List Manga)
    (web : List (String × Manga)) :
    (check user web).2 = user.filterMap (qualKey web) ∧
    ∀ k, lookupD (check user web).1 k
      = (lookupD web k).map (patchUuid (lastQualUuid user web k)) := by
  induction user using List.reverseRecOn with
  | nil =>
    refine ⟨rfl, fun k => ?_⟩
    rw [lastQualUuid_nil]
    have hb : (check [] web).1 = web := rfl
    rw [hb]
    cases lookupD web k <;> rfl
  | append_singleton us m ih =>
    obtain ⟨ihK, ihW⟩ := ih
    rw [check_concat]
    unfold checkStep
    cases hn : m.name with
    | none =>
      have hq : qualKey web m = none := by
        unfold qualKey
        rw [hn]
      refine ⟨?_, fun k => ?_⟩
      · rw [ihK, List.filterMap_append]
        simp [List.filterMap, hq]
      · rw [ihW k, lastQualUuid_concat_neg us m web k (by rw [hq]; intro h; cases h)]
    | some nm =>
      dsimp only
      cases hl : lookupD web (pyLower nm) with
      | none =>
        have hW : lookupD (check us web).1 (pyLower nm) = none := by
          rw [ihW, hl]
          rfl
        rw [hW]
        have hq : qualKey web m = none := by
          unfold qualKey
          rw [hn]
          simp only [hl]
        refine ⟨?_, fun k => ?_⟩
        · rw [ihK, List.filterMap_append]
          simp [List.filterMap, hq]
        · rw [ihW k,
            lastQualUuid_concat_neg us m web k (by rw [hq]; intro h; cases h)]
      | some w =>
        have hW : lookupD (check us web).1 (pyLower nm)
            = some (patchUuid (lastQualUuid us web (pyLower nm)) w) := by
          rw [ihW, hl]
          rfl
        rw [hW]
        dsimp only
        rw [patchUuid_chapter]
        cases hmc : m.chapter with
        | none =>
          have hq : qualKey web m = none := by
            unfold qualKey
            rw [hn]
            simp only [hl, hmc]
          refine ⟨?_, fun k => ?_⟩
          · rw [ihK, List.filterMap_append]
            simp [List.filterMap, hq]
          · rw [ihW k,
              lastQualUuid_concat_neg us m web k (by rw [hq]; intro h; cases h)]
        | some mc =>
          cases hwc : w.chapter with
          | none =>
            have hq : qualKey web m = none := by
              unfold qualKey
              rw [hn]
              simp only [hl, hmc, hwc]
            refine ⟨?_, fun k => ?_⟩
            · rw [ihK, List.filterMap_append]
              simp [List.filterMap, hq]
            · rw [ihW k,
                lastQualUuid_concat_neg us m web k (by rw [hq]; intro h; cases h)]
          | some wc =>
            dsimp only
            by_cases hlt : mc.toRat < wc.toRat
            · have hq : qualKey web m = some (pyLower nm) := by
                unfold qualKey
                rw [hn]
                simp only [hl, hmc, hwc]
                simp [hlt]
              rw [if_pos hlt]
              refine ⟨?_, fun k => ?_⟩
              · rw [ihK, List.filterMap_append]
                simp [List.filterMap, hq]
              · rw [lookupD_updateD]
                by_cases hk : (pyLower nm) = k
                · subst hk
                  rw [if_pos rfl, ihW, hl,
                    lastQualUuid_concat_pos us m web (pyLower nm) hq]
                  cases lastQualUuid us web (pyLower nm) <;>
                    simp [patchUuid_then_set, patchUuid]
                · rw [if_neg hk, ihW k,
                    lastQualUuid_concat_neg us m web k
                      (by rw [hq]; intro h; exact hk (Option.some.inj h))]
            · have hq : qualKey web m = none := by
                unfold qualKey
                rw [hn]
                simp only [hl, hmc, hwc]
                simp [hlt]
              rw [if_neg hlt]
              refine ⟨?_, fun k => ?_⟩
              · rw [ihK, List.filterMap_append]
                simp [List.filterMap, hq]
              · rw [ihW k,
                  lastQualUuid_concat_neg us m web k
                    (by rw [hq]; intro h; cases h)]

/-! Frame lemmas: `check` and `check_multiple` touch nothing but uuid
fields of the index. -/

theorem mapValuesD_updateD (d : List (String × Manga)) (k : String)
    (f : Manga → Manga) (hf : ∀ x, clearUuid (f x) = clearUuid x) :
    mapValuesD clearUuid (updateD d k f) = mapValuesD clearUuid d := by
  induction d with
  | nil => rfl
  | cons p d ih =>
    unfold updateD mapValuesD at ih ⊢
    simp only [List.map_cons]
    by_cases hp : p.1 = k
    · simp only [hp, beq_self_eq_true, if_true]
      rw [ih]
      rw [hf p.2]
    · have hb : (p.1 == k) = false := by simp [hp]
      simp only [hb, Bool.false_eq_true, if_false]
      rw [ih]

theorem checkStep_clearUuid (st : List (String × Manga) × List String)
    (m : Manga) :
    mapValuesD clearUuid (checkStep st m).1 = mapValuesD clearUuid st.1 := by
  unfold checkStep
  cases m.name with
  | none => rfl
  | some nm =>
    dsimp only
    cases lookupD st.1 (pyLower nm) with
    | none => rfl
    | some w =>
      dsimp only
      cases m.chapter with
      | none =>
        cases w.chapter <;> rfl
      | some mc =>
        cases w.chapter with
        | none => rfl
        | some wc =>
          dsimp only
          by_cases hlt : mc.toRat < wc.toRat
          · rw [if_pos hlt]
            exact mapValuesD_updateD st.1 (pyLower nm)
              (fun w0 => { w0 with uuid := m.uuid }) (fun x => rfl)
          · rw [if_neg hlt]

theorem check_clearUuid_aux (user : List Manga)
    (st : List (String × Manga) × List String) :
    mapValuesD clearUuid (user.foldl checkStep st).1
      = mapValuesD clearUuid st.1 := by
  induction user generalizing st with
  | nil => rfl
  | cons m user ih =>
    rw [List.foldl_cons, ih (checkStep st m), checkStep_clearUuid]

/-- `check` leaves the index unchanged except for uuid overwrites. -/
theorem check_clearUuid (user : List Manga) (web : List (String × Manga)) :
    mapValuesD clearUuid (check user web).1 = mapValuesD clearUuid web :=
  check_clearUuid_aux user (web, [])

theorem cmStep_clearUuid (st : List (String × Manga) × List (String × List String))
    (p : Manga × List (String × Int)) :
    mapValuesD clearUuid (cmStep st p).1 = mapValuesD clearUuid st.1 := by
  unfold cmStep
  cases p.1.name with
  | none => rfl
  | some nm =>
    dsimp only
    cases lookupD st.1 (pyLower nm) with
    | none => rfl
    | some w =>
      dsimp only
      exact mapValuesD_updateD st.1 (pyLower nm)
        (fun w0 => { w0 with uuid := p.1.uuid }) (fun x => rfl)

theorem check_multiple_clearUuid_aux (user : List (Manga × List (String × Int)))
    (st : List (String × Manga) × List (String × List String)) :
    mapValuesD clearUuid (user.foldl cmStep st).1
      = mapValuesD clearUuid st.1 := by
  induction user generalizing st with
  | nil => rfl
  | cons p user ih =>
    rw [List.foldl_cons, ih (cmStep st p), cmStep_clearUuid]

/-- `check_multiple` leaves the index unchanged except for uuid
overwrites. -/
theorem check_multiple_clearUuid (user : List (Manga × List (String × Int)))
    (web : List (String × Manga)) :
    mapValuesD clearUuid (check_multiple user web).1
      = mapValuesD clearUuid web :=
  check_multiple_clearUuid_aux user (web, [])

/-- `create_index` answers `None` exactly on an empty scraper list. -/
theorem create_index_none_iff (now : Nat) (scrapers : List Scraper) :
    create_index now scrapers = none ↔ scrapers = [] := by
  unfold create_index
  cases scrapers with
  | nil => simp
  | cons s scrapers => simp

/-- When the chapters differ and the file side is not behind, the
database side is behind (its chapter is `None` or numerically
smaller). -/
theorem chapLtC_db_behind (dc mc : Option PyNum)
    (hch : chapEq dc mc = false)
    (hnf : (mc.isNone || chapLtC mc dc) = false) :
    (dc.isNone || chapLtC dc mc) = true := by
  cases dc with
  | none => rfl
  | some a =>
    cases mc with
    | none => simp [Option.isNone] at hnf
    | some b =>
      unfold chapEq at hch
      unfold chapLtC at hnf ⊢
      simp only [Option.isNone_some, Bool.false_or] at hnf ⊢
      simp only [beq_eq_false_iff_ne, ne_eq] at hch
      simp only [decide_eq_false_iff_not] at hnf
      simp only [decide_eq_true_eq]
      exact lt_of_le_of_ne (le_of_not_lt hnf) hch

/-! Claim-level theorems. -/

/-- C1 (evaluation at the failing input): the claim says every index
entry's chapter is the maximum chapter successfully normalised for that
name.  On a single source whose only record normalises to chapter 5,
`_do_scrap` returns the entry with chapter `0` — the initial
`{'chapter': 0}` from `setdefault` — because the guard
`not isinstance(old, float) or not isinstance(old, int)` at
`controller.py:348` is vacuously true and skips the max-update; the
final index therefore carries chapter 0, not 5. -/
theorem c1_index_keeps_zero_not_max :
    recNumber ⟨some (RVal.scalar ("x")), some (NumVal.scalar (some 5)), none⟩
      = some 5 ∧
    do_scrap scrC1 = some [(("x"), ⟨PyNum.int 0, (""), ("x")⟩)] ∧
    create_index 7 [scrC1]
      = some [(("x"),
          ⟨none, some ("x"), some (PyNum.int 0), none, some 7, [("")]⟩)] ∧
    ¬(create_index 7 [scrC1]
      = some [(("x"),
          ⟨none, some ("x"), some (PyNum.float 5), none, some 7, [("")]⟩)]) := by
  refine ⟨by decide, by decide, by decide, by decide⟩

/-- C2 (counterexample): the fold of collected per-source results into
the final index is not invariant under permutations of the results
list: with two sources that both list `x`, the two orders produce
indexes with different `urls` (each order keeps the last-processed
source's link, because every per-source chapter is 0 and the replace
branch always fires). -/
theorem c2_counterexample :
    (List.map do_scrap [scrA, scrB]).Perm (List.map do_scrap [scrB, scrA]) ∧
    ¬(foldResults 0 (List.map do_scrap [scrA, scrB])
        = foldResults 0 (List.map do_scrap [scrB, scrA])) := by
  constructor
  · exact List.Perm.swap _ _ _
  · decide

/-- C2 (amended): the sequential and bounded-pool modes produce the
identical index (both fold the results collected in source order), and
the set of keys of the fold is invariant under every permutation of the
results list; the full index, however, is not permutation-invariant
(see the counterexample). -/
theorem c2_amended (now : Nat) (scrapers : List Scraper)
    (rs rs2 : List (Option (List (String × SrcEntry)))) (hperm : rs.Perm rs2) :
    create_index now scrapers = create_index_pool now scrapers ∧
    ∀ k, (lookupD (foldResults now rs) k).isSome
        = (lookupD (foldResults now rs2) k).isSome := by
  refine ⟨rfl, fun k => ?_⟩
  rw [isSome_lookupD_foldResults, isSome_lookupD_foldResults]
  exact any_of_perm rs rs2 hperm _

theorem c2_amended_witness :
    (lookupD (foldResults 0 (List.map do_scrap [scrA, scrB])) ("x")).isSome
      = (lookupD (foldResults 0 (List.map do_scrap [scrB, scrA]))
          ("x")).isSome :=
  (c2_amended 0 [] (List.map do_scrap [scrA, scrB])
    (List.map do_scrap [scrB, scrA]) (List.Perm.swap _ _ _)).2 ("x")

/-- C7 (counterexample): the claim says normalisation keeps the maximum
successfully parsed candidate as the record's chapter number; but a
record whose maximum parsed candidate is `0` is rejected outright (the
final `if not number` test discards `0.0`), contributing nothing. -/
theorem c7_counterexample :
    candMax [some 0] = 0 ∧
    recNumber recZero = some 0 ∧
    procRecord ("b") [] recZero = [] := by
  refine ⟨by decide, by decide, by decide⟩

/-- C7 (amended): normalisation parses each candidate, discards
failures, and folds a maximum starting from the `-1` sentinel; the
result is the maximum of the successfully parsed values (never below
the sentinel), the record's number is `None` exactly when the fold
stays at the sentinel, and a list-shaped `number` field contributes
exactly its candidate list.  (A record is then kept only when that
number is non-`None` and nonzero; `["abc","4.5","3"]` yields 4.5 — see
the witness.) -/
theorem c7_amended (cs : List (Option Rat)) :
    candMax cs = (cs.filterMap id).foldl max (-1) ∧
    (∀ w ∈ cs.filterMap id, w ≤ candMax cs) ∧
    parsedNumber cs = (if candMax cs = -1 then none else some (candMax cs)) ∧
    recNumber ⟨none, some (NumVal.vals cs), none⟩ = parsedNumber cs := by
  refine ⟨candMax_eq_foldl_max cs, ?_, rfl, rfl⟩
  intro w hw
  rw [candMax_eq_foldl_max]
  exact mem_le_foldl_max _ _ _ hw

theorem c7_amended_witness :
    (3 : Rat) ≤ candMax [none, some fourPointFive, some 3] ∧
    parsedNumber [none, some fourPointFive, some 3] = some fourPointFive :=
  ⟨(c7_amended [none, some fourPointFive, some 3]).2.1 3 (by decide),
    by decide⟩

/-- C9: a source that raises (connectivity or otherwise) or whose
listing lacks the `"chapter"` key contributes nothing to the fold and
never aborts the build; `create_index` returns `None` exactly when no
scrapers are configured; and when scrapers exist but all fail the
result is the empty-but-present index. -/
theorem c9_error_containment (now : Nat) (scrapers : List Scraper) :
    (create_index now scrapers = none ↔ scrapers = []) ∧
    (∀ (pre post : List Scraper) (s : Scraper), scrapFails s = true →
        foldResults now ((pre ++ s :: post).map do_scrap)
          = foldResults now ((pre ++ post).map do_scrap)) ∧
    ((∀ s ∈ scrapers, scrapFails s = true) → ¬(scrapers = []) →
        create_index now scrapers = some []) := by
  refine ⟨create_index_none_iff now scrapers, ?_, ?_⟩
  · intro pre post s hs
    rw [List.map_append, List.map_cons, do_scrap_of_fails s hs,
      List.map_append]
    exact foldResults_skip_none now (pre.map do_scrap) (post.map do_scrap)
  · intro hall hne
    have hnone : ∀ r ∈ scrapers.map do_scrap, r = none := by
      intro r hr
      obtain ⟨s, hs, rfl⟩ := List.mem_map.mp hr
      exact do_scrap_of_fails s (hall s hs)
    have hfold : foldResults now (scrapers.map do_scrap) = [] :=
      foldl_resultStep_all_none now (scrapers.map do_scrap) [] hnone
    cases scrapers with
    | nil => exact absurd rfl hne
    | cons s ss =>
      unfold create_index
      rw [if_neg (by simp)]
      rw [hfold]

theorem c9_witness :
    foldResults 0 (([] ++ scrFail :: []).map do_scrap)
      = foldResults 0 (([] ++ ([] : List Scraper)).map do_scrap) ∧
    create_index 0 [scrFail] = some [] :=
  ⟨(c9_error_containment 0 []).2.1 [] [] scrFail (by decide),
    (c9_error_containment 0 [scrFail]).2.2 (by decide) (by decide)⟩

/-- C10 (counterexample): the claim concludes that chapter 0 can never
enter the per-source map or the final index; but every accepted record
leaves the `setdefault` initial `{'chapter': 0}` in place (the guarded
max-update is dead code), so the per-source map and the index hold
chapter 0 for every accepted name. -/
theorem c10_counterexample :
    do_scrap scrC1 = some [(("x"), ⟨PyNum.int 0, (""), ("x")⟩)] ∧
    (PyNum.int 0).toRat = 0 := by
  refine ⟨by decide, by decide⟩

/-- C10 (amended): (a) a record whose candidates all parse to values
`≤ -1` is rejected (only candidates strictly above the `-1` sentinel
ever replace it); (b) a record whose normalised number is `0` is
rejected by the final truthiness test; (c) nevertheless chapter 0 does
enter the per-source map: every entry of every successful `_do_scrap`
result has chapter `int 0`, the `setdefault` initial value. -/
theorem c10_amended :
    (∀ cs : List (Option Rat),
        (∀ c ∈ cs, ∀ v : Rat, c = some v → v ≤ -1) →
        parsedNumber cs = none) ∧
    (∀ (base : String) (d : List (String × SrcEntry)) (a : RawRecord),
        recNumber a = some 0 → procRecord base d a = d) ∧
    (∀ (s : Scraper) (d : List (String × SrcEntry)), do_scrap s = some d →
        ∀ kv ∈ d, kv.2.chapter = PyNum.int 0) := by
  refine ⟨?_, ?_, do_scrap_chapter_zero⟩
  · intro cs h
    unfold parsedNumber
    rw [candMax_sentinel cs h]
    simp
  · intro base d a h
    unfold procRecord
    rw [h]
    simp

theorem c10_amended_witness :
    parsedNumber [some (-2), none, some (-1)] = none ∧
    procRecord ("b") [] recZero = [] ∧
    (("x"), (⟨PyNum.int 0, (""), ("x")⟩ : SrcEntry)).2.chapter
      = PyNum.int 0 :=
  ⟨c10_amended.1 [some (-2), none, some (-1)] (by decide),
    c10_amended.2.1 ("b") [] recZero (by decide),
    c10_amended.2.2 scrC1 [(("x"), ⟨PyNum.int 0, (""), ("x")⟩)] (by decide)
      (("x"), ⟨PyNum.int 0, (""), ("x")⟩) (by decide)⟩

/-- C3 (counterexample): the claim says a common pair whose timestamps
and chapters agree contributes nothing; but when the file copy lacks a
uuid the field backfill fires and sets the dirty flag even though
timestamps and chapters agree. -/
theorem c3_counterexample :
    chapEq dbAgree.chapter fileNoUuid.chapter = true ∧
    dbAgree.updated = fileNoUuid.updated ∧
    (syncPair dbAgree fileNoUuid false).dirty = true := by
  refine ⟨by decide, by decide, by decide⟩

/-- C3 (amended): provided no field backfill applies (the file copy's
uuid, created, updated and name are all present/truthy), a common pair
whose timestamps and chapters agree contributes nothing: both copies
and the dirty flag are returned unchanged and no database upsert is
queued — hence reconciling the output again is the same no-op. -/
theorem c3_amended (d m : Manga) (dirty : Bool)
    (h1 : strTruthy m.uuid = true) (h2 : timeTruthy m.created = true)
    (h3 : timeTruthy m.updated = true) (h4 : strTruthy m.name = true)
    (hts : d.updated = m.updated)
    (hch : chapEq d.chapter m.chapter = true) :
    syncPair d m dirty = ⟨d, m, dirty, false⟩ ∧
    syncPair (syncPair d m dirty).d (syncPair d m dirty).m
        (syncPair d m dirty).dirty = ⟨d, m, dirty, false⟩ := by
  have hmain : syncPair d m dirty = ⟨d, m, dirty, false⟩ := by
    unfold syncPair
    rw [backfill_noop d m dirty h1 h2 h3 h4]
    dsimp only
    rw [hts, timeLt_self, hch]
    simp
  exact ⟨hmain, by rw [hmain]; exact hmain⟩

theorem c3_amended_witness :
    syncPair dbAgree fileAgree false = ⟨dbAgree, fileAgree, false, false⟩ :=
  (c3_amended dbAgree fileAgree false (by decide) (by decide) (by decide)
    (by decide) (by decide) (by decide)).1

/-- C4: for a common pair that reaches the chapter rule with equal
timestamps and differing chapters, the side whose chapter is `None` or
smaller is advanced to the other side's chapter: when the file side is
behind its chapter becomes the database chapter, the dirty flag is set
and no upsert is queued; when the database side is behind the database
copy's chapter becomes the file chapter and it is queued for a database
update (`None` always counts as behind). -/
theorem c4_chapter_rule (d m : Manga) (dirty : Bool)
    (hts : m.updated = d.updated)
    (hch : chapEq d.chapter m.chapter = false) :
    if (m.chapter.isNone || chapLtC m.chapter d.chapter) then
      (syncPair d m dirty).m.chapter = d.chapter ∧
      (syncPair d m dirty).dirty = true ∧
      (syncPair d m dirty).upsert = false ∧
      (syncPair d m dirty).d = d
    else
      (syncPair d m dirty).d = { d with chapter := m.chapter } ∧
      (syncPair d m dirty).upsert = true ∧
      (syncPair d m dirty).m.chapter = m.chapter ∧
      (syncPair d m dirty).dirty = (backfill d m dirty).2 := by
  have hmu : (backfill d m dirty).1.updated = d.updated := by
    rw [backfill_updated]
    split
    · exact hts
    · rfl
  have hmc : (backfill d m dirty).1.chapter = m.chapter :=
    backfill_chapter d m dirty
  have hl1 : timeLt d.updated (backfill d m dirty).1.updated = false := by
    rw [hmu]
    exact timeLt_self d.updated
  have hl2 : timeLt (backfill d m dirty).1.updated d.updated = false := by
    rw [hmu]
    exact timeLt_self d.updated
  have hce : chapEq d.chapter (backfill d m dirty).1.chapter = false := by
    rw [hmc]
    exact hch
  unfold syncPair
  dsimp only
  rw [hl1, hl2, hce, hmc]
  simp only [Bool.false_eq_true, if_false, Bool.not_false, if_true]
  cases hfb : (m.chapter.isNone || chapLtC m.chapter d.chapter) with
  | true =>
    simp only [if_true]
    refine ⟨?_, ?_, ?_, ?_⟩ <;> trivial
  | false =>
    simp only [Bool.false_eq_true, if_false]
    rw [chapLtC_db_behind d.chapter m.chapter hch hfb]
    simp only [if_true]
    refine ⟨?_, ?_, ?_, ?_⟩ <;> trivial

theorem c4_chapter_rule_witness :
    (fileNoChap.chapter.isNone || chapLtC fileNoChap.chapter dbChap7.chapter)
        = true ∧
    (syncPair dbChap7 fileNoChap false).m.chapter = dbChap7.chapter ∧
    (syncPair dbChap7 fileNoChap false).dirty = true ∧
    (syncPair dbChap7 fileNoChap false).upsert = false ∧
    (syncPair dbChap7 fileNoChap false).d = dbChap7 := by
  have h := c4_chapter_rule dbChap7 fileNoChap false (by decide) (by decide)
  rw [if_pos (by decide)] at h
  exact ⟨by decide, h.1, h.2.1, h.2.2.1, h.2.2.2⟩

/-- C5: for a common pair with both timestamps present and different,
exactly one direction fires: if the database copy is older, `name`,
`chapter` and `updated` are copied from the (backfilled) file copy into
the database copy and it is queued for a database update, the file copy
untouched; if the database copy is newer, those fields are copied from
the database copy into the file copy and the dirty flag is set, with no
upsert. -/
theorem c5_timestamp_rule (d m : Manga) (dirty : Bool) (td tm : Nat)
    (hd : d.updated = some td) (hm : m.updated = some tm)
    (hne : ¬(td = tm)) :
    if td < tm then
      (syncPair d m dirty).d =
        { d with name := (backfill d m dirty).1.name,
                 chapter := m.chapter, updated := m.updated } ∧
      (syncPair d m dirty).upsert = true ∧
      (syncPair d m dirty).m = (backfill d m dirty).1 ∧
      (syncPair d m dirty).dirty = (backfill d m dirty).2
    else
      (syncPair d m dirty).m =
        { (backfill d m dirty).1 with name := d.name,
                                      chapter := d.chapter,
                                      updated := d.updated } ∧
      (syncPair d m dirty).dirty = true ∧
      (syncPair d m dirty).upsert = false ∧
      (syncPair d m dirty).d = d := by
  have hmu : (backfill d m dirty).1.updated = some tm := by
    rw [backfill_updated, hm]
    simp [timeTruthy]
  have hmc : (backfill d m dirty).1.chapter = m.chapter :=
    backfill_chapter d m dirty
  unfold syncPair
  dsimp only
  rw [hd, hmu, hmc, hm]
  by_cases hlt : td < tm
  · rw [if_pos hlt]
    have h1 : timeLt (some td) (some tm) = true := by
      simp [timeLt, hlt]
    rw [h1]
    simp only [if_true]
    refine ⟨?_, ?_, ?_, ?_⟩ <;> trivial
  · rw [if_neg hlt]
    have hgt : tm < td :=
      Nat.lt_of_le_of_ne (Nat.le_of_not_lt hlt) (fun h => hne h.symm)
    have h1 : timeLt (some td) (some tm) = false := by
      simp [timeLt, hlt]
    have h2 : timeLt (some tm) (some td) = true := by
      simp [timeLt, hgt]
    rw [h1, h2]
    simp only [Bool.false_eq_true, if_false, if_true]
    refine ⟨?_, ?_, ?_, ?_⟩ <;> trivial

theorem c5_timestamp_rule_witness :
    (3 : Nat) < 5 ∧
    (syncPair dbOld fileNew false).d =
      { dbOld with name := (backfill dbOld fileNew false).1.name,
                   chapter := fileNew.chapter,
                   updated := fileNew.updated } ∧
    (syncPair dbOld fileNew false).upsert = true ∧
    (syncPair dbOld fileNew false).m = (backfill dbOld fileNew false).1 := by
  have h := c5_timestamp_rule dbOld fileNew false 3 5 (by decide) (by decide)
    (by decide)
  rw [if_pos (by decide)] at h
  exact ⟨by decide, h.1, h.2.1, h.2.2.1⟩

/-- C6 (counterexample): the claim says each returned entry carries the
matching reader entry's own uuid; but the returned entries alias the
one shared index entry, so with two qualifying readers of the same
title both returned entries carry the second reader's uuid, and the
result is not `[uuid 1, uuid 2]`. -/
theorem c6_counterexample :
    ((checkResult usersC6 webC6).map (fun o => o.bind (fun mm => mm.uuid)))
        = [some ("2"), some ("2")] ∧
    ¬(((checkResult usersC6 webC6).map (fun o => o.bind (fun mm => mm.uuid)))
        = [some ("1"), some ("2")]) := by
  refine ⟨by decide, by decide⟩

/-- C6 (amended): `check` appends, in reader-list order, exactly one
result per reader entry whose lower-cased non-null name is an index key
with both chapters non-null and the reader's chapter strictly below the
index chapter (an equal chapter yields nothing); each result aliases
the shared index entry for its key, whose uuid ends up being that of
the last qualifying reader entry for that key. -/
theorem c6_amended (user : List Manga) (web : List (String × Manga)) :
    (check user web).2 = user.filterMap (qualKey web) ∧
    checkResult user web
      = (user.filterMap (qualKey web)).map (lookupD (check user web).1) ∧
    ∀ k, lookupD (check user web).1 k
      = (lookupD web k).map (patchUuid (lastQualUuid user web k)) := by
  obtain ⟨h1, h2⟩ := check_characterization user web
  refine ⟨h1, ?_, h2⟩
  unfold checkResult
  rw [h1]

/-- C8 (counterexample): the claim says emitted results are copies and
the index mapping is left unchanged; but `check` overwrites the matched
index entry's uuid in place, so the index after the call differs from
the index before it. -/
theorem c8_counterexample :
    ¬((check [readerOne] webC6).1 = webC6) ∧
    ((lookupD (check [readerOne] webC6).1 ("x")).bind (fun w => w.uuid))
        = some ("1") ∧
    ((lookupD webC6 ("x")).bind (fun w => w.uuid)) = none := by
  refine ⟨by decide, by decide, by decide⟩

/-- C8 (amended): the emitted results are aliases of the (final) index
entries, not copies, and both `check` and `check_multiple` mutate the
looked-up entries' uuid in place; apart from uuids the index is
unchanged — its keys and every entry's name, chapter, created, updated
and urls are preserved. -/
theorem c8_amended (user : List Manga)
    (um : List (Manga × List (String × Int)))
    (web : List (String × Manga)) :
    mapValuesD clearUuid (check user web).1 = mapValuesD clearUuid web ∧
    mapValuesD clearUuid (check_multiple um web).1
      = mapValuesD clearUuid web ∧
    checkResult user web
      = (check user web).2.map (lookupD (check user web).1) :=
  ⟨check_clearUuid user web, check_multiple_clearUuid um web, rfl⟩

end Idefix
